import Mathlib

/-!
Verification of the `sn_launch_tool` launcher (`src/lib.rs`).

The program is a sequential orchestrator: it resolves the path of a
`safe_vault` binary, launches a genesis vault, sleeps, scrapes the genesis
log for a connection-info line, and then launches the remaining vaults with
the scraped contact string, sleeping after each launch.

Shallow embedding conventions:
* strings are `List Char` (`Str`), converted from literals via `String.data`;
* the OS is an explicit `Env`: argument parsing, the home directory,
  file reads and process spawns are functions supplied by the environment;
* observable side effects (spawn attempts, sleeps, log-scrape attempts) are
  recorded in a trace of `Event`s;
* errors are an inductive `RunError`; `renderErr` produces the exact message
  strings the Rust code builds with `format!`;
* `num_vaults` is a `u8`; the loop bound `num_vaults + 1` is `u8` arithmetic,
  modelled as wrap-around `% 256` (release-profile semantics; a debug build
  would panic on the same overflow, and under either semantics no follower
  is launched when `num_vaults = 255`);
* path joins are modelled Unix-style (`dir ++ "/" ++ name`); the
  platform-conditional constant `SAFE_VAULT_EXECUTABLE` takes the platform
  as an explicit `Bool`.
-/

abbrev Str := List Char

instance {ε α : Type} [DecidableEq ε] [DecidableEq α] : DecidableEq (Except ε α) := fun
  | .ok a, .ok b => if h : a = b then .isTrue (by rw [h]) else .isFalse (by simp [h])
  | .ok _, .error _ => .isFalse (by simp)
  | .error _, .ok _ => .isFalse (by simp)
  | .error a, .error b => if h : a = b then .isTrue (by rw [h]) else .isFalse (by simp [h])

/-- Prefix test on character lists. -/
def startsWithL : Str → Str → Bool
  | [], _ => true
  | _ :: _, [] => false
  | p :: ps, c :: cs => p == c && startsWithL ps cs

/-- Substring (contiguous) occurrence test on character lists. -/
def occursIn (pat : Str) : Str → Bool
  | [] => List.isEmpty pat
  | c :: rest => startsWithL pat (c :: rest) || occursIn pat rest

/-- Whitespace characters matched by the regex class in the scraper's pattern
(ASCII portion; the genesis log line uses a plain space). -/
def isWsChar (c : Char) : Bool :=
  c == ' ' || c == '\t' || c == '\n' || c == '\x0b' || c == '\x0c' || c == '\r'

/-- True when the list contains no newline: the regex metacharacter for
"any character" does not match a newline. -/
def noNl (l : Str) : Bool := l.all (fun c => !(c == '\n'))

/-- The literal part of the scraper's pattern, before the whitespace class. -/
def connLit : Str := "Vault connection info:".data

/-- Whether the scraper's pattern can match with its leading "one or more
characters" part ending just before position `i` of the line: `i ≥ 1`,
no newline among the first `i` characters, the literal
`Vault connection info:` at position `i`, a whitespace character after it,
and a nonempty newline-free remainder (the capture). -/
def validAt (l : Str) (i : Nat) : Bool :=
  decide (1 ≤ i) && noNl (List.take i l) && startsWithL connLit (List.drop i l) &&
    (match List.drop (i + 22) l with
     | c :: rest => isWsChar c && !(List.isEmpty rest) && noNl rest
     | [] => false)

/-- Semantics of the source's fixed regex on one line: the leading
"one or more characters" part is greedy, so the match uses the largest
valid position, and the capture is everything after the whitespace there. -/
def matchLine (l : Str) : Option Str :=
  match (List.filter (validAt l) (List.range (List.length l))).getLast? with
  | some i => some (List.drop (i + 23) l)
  | none => none

/-- Split on newline characters, mirroring iteration over a Rust string's
lines: a trailing newline produces no extra empty line, and a trailing
carriage return is stripped from each line. -/
def splitNl : Str → List Str
  | [] => [[]]
  | c :: cs =>
    if c = '\n' then [] :: splitNl cs
    else
      match splitNl cs with
      | [] => [[c]]
      | l :: ls => (c :: l) :: ls

/-- Strip one trailing carriage return. -/
def stripCR (l : Str) : Str :=
  match l.getLast? with
  | some c => if c = '\r' then l.dropLast else l
  | none => l

/-- The lines of a file's contents, as iterated by the source. -/
def rustLines (s : Str) : List Str :=
  (if (splitNl s).getLast? = some [] then (splitNl s).dropLast else splitNl s).map stripCR

/-- The errors the program can produce. The source represents all of them as
strings; the constructors record which failing operation built the string,
and `renderErr` below reproduces the exact message. -/
inductive RunError where
  /-- CLI/programmatic argument parsing failed (message from the parsing
  collaborator, forwarded verbatim). -/
  | argParseError (msg : Str)
  /-- The user's home directory could not be determined. -/
  | resolutionError
  /-- A process spawn failed; carries the binary path, the argument list and
  the OS error message. -/
  | launchError (path : Str) (args : List Str) (osMsg : Str)
  /-- The genesis log file could not be read; carries the OS error message. -/
  | ioError (osMsg : Str)
  /-- The genesis log was read but no line matched the pattern. -/
  | notFoundError
  deriving DecidableEq

/-- Log scraper, from `grep_connection_info` in the source: read the file,
scan its lines in order, and return the first line's capture wrapped in
square brackets. (The source also maps a pattern-compilation error, but the
pattern is a fixed valid literal, so that branch cannot be taken and the
compiled pattern is embedded directly as `matchLine`.) -/
def grep_connection_info (fsys : Str → Except Str Str) (log_path : Str) :
    Except RunError Str :=
  match fsys log_path with
  | .error err => .error (.ioError err)
  | .ok file_content =>
    match List.findSome? matchLine (rustLines file_content) with
    | some contact_info => .ok ('[' :: (contact_info ++ [']']))
    | none => .error .notFoundError

/-- Platform-dependent executable name, from the two `cfg`-selected
constants in the source. -/
def SAFE_VAULT_EXECUTABLE (isWindows : Bool) : Str :=
  if isWindows then "safe_vault.exe".data else "safe_vault".data

/-- Path join, modelling `PathBuf::push`/`join` followed by `display` with a
Unix-style separator (the directory names pushed here are relative and the
base is assumed not to end in a separator). -/
def pathJoin (dir name : Str) : Str := dir ++ '/' :: name

/-- Binary path resolution, from `get_vault_bin_path` in the source: an
explicit path is returned unchanged; otherwise the default is built under
the user's home directory, failing when the home directory is unknown.
No filesystem check is made (the function takes no filesystem). -/
def get_vault_bin_path (isWindows : Bool) (home : Option Str)
    (vault_path : Option Str) : Except RunError Str :=
  match vault_path with
  | some p => .ok p
  | none =>
    match home with
    | none => .error .resolutionError
    | some h =>
      .ok (pathJoin (pathJoin (pathJoin h ".safe".data) "vault".data)
            (SAFE_VAULT_EXECUTABLE isWindows))

/-- The parsed launch configuration, from the `CmdArgs` struct in the source.
The two verbosity levels and `num_vaults` are `u8` values (kept as `Nat`,
with wrap-around applied where the source's arithmetic can overflow);
`interval` is a `u64`. -/
structure CmdArgs where
  verbosity : Nat
  vault_path : Option Str
  interval : Nat
  vaults_dir : Str
  num_vaults : Nat
  vaults_verbosity : Nat
  deriving DecidableEq

/-- The external world: the argument-parsing collaborator, the platform,
the home directory, the filesystem (reads) and the process spawner.
`fsys` and `spawn` return the OS error message on failure. `cliArgs` is the
configuration obtained when parsing the real command line (that parse exits
the process on failure and is not modelled further). -/
structure Env where
  parse : List Str → Except Str CmdArgs
  isWindows : Bool
  home : Option Str
  fsys : Str → Except Str Str
  spawn : Str → List Str → Except Str Unit
  cliArgs : CmdArgs

/-- Observable side effects of a run, in order: a process-launch attempt
(with the binary path and full argument list), a sleep of `secs` seconds,
and a log-scrape attempt on `path`. -/
inductive Event where
  | launch (bin : Str) (args : List Str)
  | sleep (secs : Nat)
  | scrape (path : Str)
  deriving DecidableEq

/-- The vaults' verbosity token: a `-` followed by one `v` per level. -/
def verbosityToken (v : Nat) : Str := '-' :: List.replicate v 'v'

/-- The arguments common to every vault, from the source: the verbosity
token when the vaults' verbosity is positive, nothing otherwise. -/
def commonArgs (v : Nat) : List Str :=
  if v > 0 then [verbosityToken v] else []

/-- The genesis vault's output directory. -/
def gdirOf (cfg : CmdArgs) : Str := pathJoin cfg.vaults_dir "safe-vault-genesis".data

/-- The genesis vault's log file path. -/
def glogOf (cfg : CmdArgs) : Str := pathJoin (gdirOf cfg) "safe_vault.log".data

/-- The genesis vault's argument list, from the source: common args, then
`--first`, then root and log directories. -/
def genesisVaultArgs (cfg : CmdArgs) : List Str :=
  commonArgs cfg.vaults_verbosity ++
    ["--first".data, "--root-dir".data, gdirOf cfg, "--log-dir".data, gdirOf cfg]

/-- Follower vault number `i`'s argument list, from the source: common args,
then root and log directories, then the hard-coded contact string scraped
from the genesis log. -/
def currentVaultArgs (cfg : CmdArgs) (contact : Str) (i : Nat) : List Str :=
  commonArgs cfg.vaults_verbosity ++
    ["--root-dir".data, pathJoin cfg.vaults_dir ("safe-vault-".data ++ (Nat.repr i).data),
     "--log-dir".data, pathJoin cfg.vaults_dir ("safe-vault-".data ++ (Nat.repr i).data),
     "--hard-coded-contacts".data, contact]

/-- Process launcher, from `run_vault_cmd` in the source: spawn and return
immediately, wrapping a spawn failure with the path and argument list. -/
def run_vault_cmd (spawner : Str → List Str → Except Str Unit) (vault_path : Str)
    (args : List Str) : Except RunError Unit :=
  match spawner vault_path args with
  | .error err => .error (.launchError vault_path args err)
  | .ok _ => .ok ()

/-- The follower loop of `run_with`: launch vaults `i`, `i+1`, ... while
`fuel` launches remain, sleeping after every launch; a launch failure ends
the run at once. Returns the events performed and the outcome. -/
def launchFollowers (spawner : Str → List Str → Except Str Unit) (bin : Str)
    (cfg : CmdArgs) (contact : Str) : Nat → Nat → List Event × Except RunError Unit
  | _, 0 => ([], .ok ())
  | i, fuel + 1 =>
    match run_vault_cmd spawner bin (currentVaultArgs cfg contact i) with
    | .error e => ([.launch bin (currentVaultArgs cfg contact i)], .error e)
    | .ok _ =>
      ((.launch bin (currentVaultArgs cfg contact i)) :: (.sleep cfg.interval) ::
          (launchFollowers spawner bin cfg contact (i + 1) fuel).1,
        (launchFollowers spawner bin cfg contact (i + 1) fuel).2)

/-- The body of `run_with` after argument parsing: resolve the binary path,
launch the genesis vault, sleep, scrape the genesis log, then launch
followers `2 .. num_vaults` (the loop bound `num_vaults + 1` is `u8`
arithmetic, hence the `% 256`). Returns the event trace and the outcome. -/
def runCore (env : Env) (cfg : CmdArgs) : List Event × Except RunError Unit :=
  match get_vault_bin_path env.isWindows env.home cfg.vault_path with
  | .error e => ([], .error e)
  | .ok bin =>
    match run_vault_cmd env.spawn bin (genesisVaultArgs cfg) with
    | .error e => ([.launch bin (genesisVaultArgs cfg)], .error e)
    | .ok _ =>
      match grep_connection_info env.fsys (glogOf cfg) with
      | .error e =>
        ([.launch bin (genesisVaultArgs cfg), .sleep cfg.interval, .scrape (glogOf cfg)],
          .error e)
      | .ok contact =>
        ((.launch bin (genesisVaultArgs cfg)) :: (.sleep cfg.interval) ::
            (.scrape (glogOf cfg)) ::
            (launchFollowers env.spawn bin cfg contact 2
              ((cfg.num_vaults + 1) % 256 - 2)).1,
          (launchFollowers env.spawn bin cfg contact 2
            ((cfg.num_vaults + 1) % 256 - 2)).2)

/-- Entry point `run_with`: explicit arguments are parsed by the
collaborator and a parse failure is returned at once (with no events);
otherwise the parsed CLI configuration is used. -/
def run_with (env : Env) : Option (List Str) → List Event × Except RunError Unit
  | none => runCore env env.cliArgs
  | some a =>
    match env.parse a with
    | .error e => ([], .error (.argParseError e))
    | .ok cfg => runCore env cfg

/-- Entry point `run`, which forwards to `run_with` with no explicit args. -/
def run (env : Env) : List Event × Except RunError Unit := run_with env none

/-- Rust `Debug` rendering of one string (quotes; escapes are not needed for
the argument strings this program builds). -/
def quoteStr (s : Str) : Str := '"' :: (s ++ ['"'])

/-- Comma-space separated concatenation. -/
def sepJoin : List Str → Str
  | [] => []
  | [x] => x
  | x :: xs => x ++ (", ".data ++ sepJoin xs)

/-- Rust `Debug` rendering of an argument list, as in `{:?}`. -/
def reprStrList (l : List Str) : Str := '[' :: (sepJoin (l.map quoteStr) ++ [']'])

/-- The exact error message strings built by the source with `format!`. -/
def renderErr : RunError → Str
  | .argParseError m => m
  | .resolutionError => "Failed to obtain user's home path".data
  | .launchError p as m =>
    "Failed to run '".data ++ (p ++ ("' with args '".data ++
      (reprStrList as ++ ("': ".data ++ m))))
  | .ioError m => "Failed to obtain the contact info of the genesis vault: ".data ++ m
  | .notFoundError => "Failed to find the contact info of the genesis vault".data

/-- The operation description with which each error message begins. -/
def opDesc : RunError → Str
  | .argParseError m => m
  | .resolutionError => "Failed to obtain user's home path".data
  | .launchError _ _ _ => "Failed to run '".data
  | .ioError _ => "Failed to obtain the contact info of the genesis vault: ".data
  | .notFoundError => "Failed to find the contact info of the genesis vault".data

/-- Number of process-launch attempts in a trace. -/
def countLaunch : List Event → Nat
  | [] => 0
  | .launch _ _ :: t => countLaunch t + 1
  | _ :: t => countLaunch t

/-- Number of sleeps in a trace. -/
def countSleep : List Event → Nat
  | [] => 0
  | .sleep _ :: t => countSleep t + 1
  | _ :: t => countSleep t

/-- The launch events of a trace, in order. -/
def launchEvents : List Event → List Event
  | [] => []
  | .launch b as :: t => .launch b as :: launchEvents t
  | _ :: t => launchEvents t

/-- The event trace the follower loop produces when every spawn succeeds. -/
def expFollowerTrace (bin : Str) (cfg : CmdArgs) (contact : Str) :
    Nat → Nat → List Event
  | _, 0 => []
  | i, fuel + 1 =>
    .launch bin (currentVaultArgs cfg contact i) :: .sleep cfg.interval ::
      expFollowerTrace bin cfg contact (i + 1) fuel

/-- The launch events of a fully successful follower loop, in index order. -/
def expFollowerLaunches (bin : Str) (cfg : CmdArgs) (contact : Str) :
    Nat → Nat → List Event
  | _, 0 => []
  | i, fuel + 1 =>
    .launch bin (currentVaultArgs cfg contact i) ::
      expFollowerLaunches bin cfg contact (i + 1) fuel

/-! ### Concrete environments for witnesses and counterexamples -/

/-- A concrete binary path. -/
def exBin : Str := "/bin/safe_vault".data

/-- A concrete genesis log content with a matching connection-info line. -/
def exLog : Str := "INFO 2020-01-01 Vault connection info: 127.0.0.1:1234\n".data

/-- The contact string the scraper extracts from `exLog`. -/
def exContact : Str := "[127.0.0.1:1234]".data

/-- A concrete configuration with `n` vaults. -/
def exCfg (n : Nat) : CmdArgs :=
  { verbosity := 0, vault_path := some exBin, interval := 5,
    vaults_dir := "./vaults".data, num_vaults := n, vaults_verbosity := 0 }

/-- A filesystem holding only the genesis log. -/
def exFs : Str → Except Str Str := fun p =>
  if p = glogOf (exCfg 0) then .ok exLog
  else .error "No such file or directory (os error 2)".data

/-- An environment where every operation succeeds. -/
def exEnv : Env :=
  { parse := fun _ => .error "unused".data, isWindows := false,
    home := some "/home/user".data, fsys := exFs,
    spawn := fun _ _ => .ok (), cliArgs := exCfg 8 }

/-- An environment whose filesystem has no genesis log. -/
def exEnvNoLog : Env :=
  { exEnv with fsys := fun _ => .error "No such file or directory (os error 2)".data }

/-- An environment whose log file exists but has no matching line. -/
def exEnvNoMatch : Env :=
  { exEnv with fsys := fun _ => .ok "INFO started\nINFO running\n".data }

/-! ### Helper lemmas -/

theorem startsWithL_append (p r : Str) : startsWithL p (p ++ r) = true := by
  induction p with
  | nil => rfl
  | cons c cs ih => simp [startsWithL, ih]

theorem occursIn_of_append (pat x y : Str) : occursIn pat (x ++ (pat ++ y)) = true := by
  induction x with
  | nil =>
    simp only [List.nil_append]
    cases hp : pat ++ y with
    | nil =>
      have hpat : pat = [] := by cases pat <;> simp_all
      subst hpat
      simp [occursIn]
    | cons c cs =>
      have h2 : startsWithL pat (c :: cs) = true := hp ▸ startsWithL_append pat y
      simp [occursIn, h2]
  | cons c cs ih =>
    simp [occursIn, List.append_eq, ih]

theorem le_getLast_of_pairwise_lt {l : List Nat} (hp : l.Pairwise (· < ·))
    {x m : Nat} (hx : x ∈ l) (hm : l.getLast? = some m) : x ≤ m := by
  induction l with
  | nil => cases hx
  | cons a t ih =>
    rcases List.pairwise_cons.1 hp with ⟨ha, hp'⟩
    cases t with
    | nil =>
      simp only [List.mem_singleton] at hx
      simp only [List.getLast?_singleton, Option.some.injEq] at hm
      omega
    | cons b t' =>
      rw [List.getLast?_cons_cons] at hm
      rcases List.mem_cons.1 hx with rfl | hx'
      · have hne : (b :: t') ≠ ([] : List Nat) := by simp
        rw [List.getLast?_eq_getLast_of_ne_nil hne] at hm
        have hmem : m ∈ b :: t' := by
          injection hm with h
          exact h ▸ List.getLast_mem hne
        exact le_of_lt (ha m hmem)
      · exact ih hp' hx' hm

/-- A successful scrape always returns a bracket-wrapped capture. -/
theorem grep_ok_shape {fsys : Str → Except Str Str} {p c : Str}
    (h : grep_connection_info fsys p = .ok c) :
    ∃ s, c = '[' :: (s ++ [']']) := by
  unfold grep_connection_info at h
  split at h
  · exact absurd h (by simp)
  · split at h
    · injection h with h2
      exact ⟨_, h2.symm⟩
    · exact absurd h (by simp)

/-- A successful `run_vault_cmd` means the underlying spawn succeeded. -/
theorem run_vault_cmd_ok {spawner : Str → List Str → Except Str Unit} {p : Str}
    {as : List Str} {u : Unit} (h : run_vault_cmd spawner p as = .ok u) :
    spawner p as = .ok () := by
  unfold run_vault_cmd at h
  cases h2 : spawner p as with
  | error m => rw [h2] at h; simp at h
  | ok v => cases v; rfl

/-- A fully successful follower loop produces the expected trace, and every
spawn in range succeeded. -/
theorem launchFollowers_ok (spawner : Str → List Str → Except Str Unit) (bin : Str)
    (cfg : CmdArgs) (contact : Str) :
    ∀ fuel i, (launchFollowers spawner bin cfg contact i fuel).2 = .ok () →
      (launchFollowers spawner bin cfg contact i fuel).1 =
          expFollowerTrace bin cfg contact i fuel ∧
        ∀ j, i ≤ j → j < i + fuel →
          spawner bin (currentVaultArgs cfg contact j) = .ok () := by
  intro fuel
  induction fuel with
  | zero =>
    intro i _
    exact ⟨rfl, fun j h1 h2 => absurd h2 (by omega)⟩
  | succ f ih =>
    intro i h
    cases hs : run_vault_cmd spawner bin (currentVaultArgs cfg contact i) with
    | error e => simp [launchFollowers, hs] at h
    | ok u =>
      cases u
      simp only [launchFollowers, hs] at h ⊢
      obtain ⟨ht, hsp⟩ := ih (i + 1) h
      refine ⟨by simp [expFollowerTrace, ht], fun j h1 h2 => ?_⟩
      rcases Nat.eq_or_lt_of_le h1 with rfl | hlt
      · exact run_vault_cmd_ok hs
      · exact hsp j (by omega) (by omega)

/-- Every event the follower loop emits (even in an aborted run) is either a
follower launch or a sleep of the configured interval. -/
theorem launchFollowers_mem (spawner : Str → List Str → Except Str Unit) (bin : Str)
    (cfg : CmdArgs) (contact : Str) :
    ∀ fuel i ev, ev ∈ (launchFollowers spawner bin cfg contact i fuel).1 →
      (∃ j, ev = .launch bin (currentVaultArgs cfg contact j)) ∨
        ev = .sleep cfg.interval := by
  intro fuel
  induction fuel with
  | zero => intro i ev h; simp [launchFollowers] at h
  | succ f ih =>
    intro i ev h
    cases hs : run_vault_cmd spawner bin (currentVaultArgs cfg contact i) with
    | error e =>
      simp only [launchFollowers, hs, List.mem_singleton] at h
      exact .inl ⟨i, h⟩
    | ok u =>
      cases u
      simp only [launchFollowers, hs, List.mem_cons] at h
      rcases h with rfl | rfl | h
      · exact .inl ⟨i, rfl⟩
      · exact .inr rfl
      · exact ih (i + 1) ev h

theorem expTrace_countLaunch (bin : Str) (cfg : CmdArgs) (contact : Str) :
    ∀ fuel i, countLaunch (expFollowerTrace bin cfg contact i fuel) = fuel := by
  intro fuel
  induction fuel with
  | zero => intro i; rfl
  | succ f ih => intro i; simp [expFollowerTrace, countLaunch, ih]

theorem expTrace_countSleep (bin : Str) (cfg : CmdArgs) (contact : Str) :
    ∀ fuel i, countSleep (expFollowerTrace bin cfg contact i fuel) = fuel := by
  intro fuel
  induction fuel with
  | zero => intro i; rfl
  | succ f ih => intro i; simp [expFollowerTrace, countSleep, ih]

theorem expTrace_launchEvents (bin : Str) (cfg : CmdArgs) (contact : Str) :
    ∀ fuel i, launchEvents (expFollowerTrace bin cfg contact i fuel) =
      expFollowerLaunches bin cfg contact i fuel := by
  intro fuel
  induction fuel with
  | zero => intro i; rfl
  | succ f ih =>
    intro i
    simp [expFollowerTrace, expFollowerLaunches, launchEvents, ih]

theorem expLaunches_length (bin : Str) (cfg : CmdArgs) (contact : Str) :
    ∀ fuel i, (expFollowerLaunches bin cfg contact i fuel).length = fuel := by
  intro fuel
  induction fuel with
  | zero => intro i; rfl
  | succ f ih => intro i; simp [expFollowerLaunches, ih]

theorem expTrace_getElem (bin : Str) (cfg : CmdArgs) (contact : Str) :
    ∀ d fuel i, d < fuel →
      (expFollowerTrace bin cfg contact i fuel).get? (2 * d) =
        some (.launch bin (currentVaultArgs cfg contact (i + d))) := by
  intro d
  induction d with
  | zero =>
    intro fuel i hd
    cases fuel with
    | zero => omega
    | succ f => simp [expFollowerTrace]
  | succ d ih =>
    intro fuel i hd
    cases fuel with
    | zero => omega
    | succ f =>
      have h2 : 2 * (d + 1) = (2 * d + 1) + 1 := by omega
      have h3 : i + (d + 1) = (i + 1) + d := by omega
      rw [h2, h3]
      simp only [expFollowerTrace, List.get?_cons_succ]
      exact ih f (i + 1) (by omega)

theorem expTrace_getLast (bin : Str) (cfg : CmdArgs) (contact : Str) :
    ∀ fuel i, 1 ≤ fuel →
      (expFollowerTrace bin cfg contact i fuel).getLast? =
        some (.sleep cfg.interval) := by
  intro fuel
  induction fuel with
  | zero => intro i h; omega
  | succ f ih =>
    intro i _
    cases f with
    | zero => simp [expFollowerTrace]
    | succ f' =>
      have hprev := ih (i + 1) (by omega)
      simp only [expFollowerTrace] at hprev ⊢
      rw [List.getLast?_cons_cons, List.getLast?_cons_cons]
      exact hprev

theorem expTrace_mem (bin : Str) (cfg : CmdArgs) (contact : Str) :
    ∀ fuel i ev, ev ∈ expFollowerTrace bin cfg contact i fuel →
      (∃ j, i ≤ j ∧ j < i + fuel ∧
          ev = .launch bin (currentVaultArgs cfg contact j)) ∨
        ev = .sleep cfg.interval := by
  intro fuel
  induction fuel with
  | zero => intro i ev h; simp [expFollowerTrace] at h
  | succ f ih =>
    intro i ev h
    simp only [expFollowerTrace, List.mem_cons] at h
    rcases h with rfl | rfl | h
    · exact .inl ⟨i, by omega, by omega, rfl⟩
    · exact .inr rfl
    · rcases ih (i + 1) ev h with ⟨j, h1, h2, h3⟩ | h4
      · exact .inl ⟨j, by omega, by omega, h3⟩
      · exact .inr h4

/-- Characterization of a fully successful run: the resolution, the genesis
spawn and the scrape all succeeded, the trace is genesis launch, sleep,
scrape, followed by the follower blocks, and every follower spawn in range
succeeded. -/
theorem runCore_ok {env : Env} {cfg : CmdArgs}
    (hok : (runCore env cfg).2 = .ok ()) :
    ∃ bin contact,
      get_vault_bin_path env.isWindows env.home cfg.vault_path = .ok bin ∧
      env.spawn bin (genesisVaultArgs cfg) = .ok () ∧
      grep_connection_info env.fsys (glogOf cfg) = .ok contact ∧
      (runCore env cfg).1 =
        Event.launch bin (genesisVaultArgs cfg) :: Event.sleep cfg.interval ::
          Event.scrape (glogOf cfg) ::
          expFollowerTrace bin cfg contact 2 ((cfg.num_vaults + 1) % 256 - 2) ∧
      ∀ j, 2 ≤ j → j < 2 + ((cfg.num_vaults + 1) % 256 - 2) →
        env.spawn bin (currentVaultArgs cfg contact j) = .ok () := by
  cases hb : get_vault_bin_path env.isWindows env.home cfg.vault_path with
  | error e => simp [runCore, hb] at hok
  | ok bin =>
    cases hg : run_vault_cmd env.spawn bin (genesisVaultArgs cfg) with
    | error e => simp [runCore, hb, hg] at hok
    | ok u =>
      cases u
      cases hc : grep_connection_info env.fsys (glogOf cfg) with
      | error e => simp [runCore, hb, hg, hc] at hok
      | ok contact =>
        simp only [runCore, hb, hg, hc] at hok
        obtain ⟨ht, hsp⟩ :=
          launchFollowers_ok env.spawn bin cfg contact
            ((cfg.num_vaults + 1) % 256 - 2) 2 hok
        exact ⟨bin, contact, rfl, run_vault_cmd_ok hg, rfl,
          by simp [runCore, hb, hg, hc, ht], hsp⟩

/-- Shape of the trace in every possible run, successful or not. -/
theorem runCore_trace_cases (env : Env) (cfg : CmdArgs) :
    (runCore env cfg).1 = [] ∨
    (∃ bin, (runCore env cfg).1 = [Event.launch bin (genesisVaultArgs cfg)]) ∨
    (∃ bin, (runCore env cfg).1 =
        [Event.launch bin (genesisVaultArgs cfg), Event.sleep cfg.interval,
          Event.scrape (glogOf cfg)] ∧
      ∃ e, grep_connection_info env.fsys (glogOf cfg) = .error e) ∨
    (∃ bin contact, grep_connection_info env.fsys (glogOf cfg) = .ok contact ∧
      (runCore env cfg).1 =
        Event.launch bin (genesisVaultArgs cfg) :: Event.sleep cfg.interval ::
          Event.scrape (glogOf cfg) ::
          (launchFollowers env.spawn bin cfg contact 2
            ((cfg.num_vaults + 1) % 256 - 2)).1) := by
  cases hb : get_vault_bin_path env.isWindows env.home cfg.vault_path with
  | error e => left; simp [runCore, hb]
  | ok bin =>
    cases hg : run_vault_cmd env.spawn bin (genesisVaultArgs cfg) with
    | error e => right; left; exact ⟨bin, by simp [runCore, hb, hg]⟩
    | ok u =>
      cases u
      cases hc : grep_connection_info env.fsys (glogOf cfg) with
      | error e =>
        right; right; left
        exact ⟨bin, by simp [runCore, hb, hg, hc], e, rfl⟩
      | ok contact =>
        right; right; right
        exact ⟨bin, contact, rfl, by simp [runCore, hb, hg, hc]⟩

/-! ### Claim theorems -/

/-- C3: the log scraper, given a readable file, returns the first matching
line's captured remainder wrapped in square brackets; it returns the
not-found error if and only if the file was read but no line matches; and it
returns an io error if and only if the file cannot be read. -/
theorem C3_theorem (fsys : Str → Except Str Str) (p : Str) :
    (∀ content cap, fsys p = .ok content →
        List.findSome? matchLine (rustLines content) = some cap →
        grep_connection_info fsys p = .ok ('[' :: (cap ++ [']']))) ∧
    ((∃ e, grep_connection_info fsys p = .error (.ioError e)) ↔
      (∃ e, fsys p = .error e)) ∧
    (grep_connection_info fsys p = .error .notFoundError ↔
      (∃ content, fsys p = .ok content ∧
        List.findSome? matchLine (rustLines content) = none)) := by
  refine ⟨?_, ⟨?_, ?_⟩, ⟨?_, ?_⟩⟩
  · intro content cap hf hm
    simp [grep_connection_info, hf, hm]
  · rintro ⟨e, he⟩
    cases hf : fsys p with
    | error m => exact ⟨m, rfl⟩
    | ok content =>
      exfalso
      cases hm : List.findSome? matchLine (rustLines content) with
      | none => simp [grep_connection_info, hf, hm] at he
      | some cap => simp [grep_connection_info, hf, hm] at he
  · rintro ⟨e, he⟩
    exact ⟨e, by simp [grep_connection_info, he]⟩
  · intro he
    cases hf : fsys p with
    | error m => simp [grep_connection_info, hf] at he
    | ok content =>
      cases hm : List.findSome? matchLine (rustLines content) with
      | none => exact ⟨content, rfl, hm⟩
      | some cap => simp [grep_connection_info, hf, hm] at he
  · rintro ⟨content, hf, hm⟩
    simp [grep_connection_info, hf, hm]

/-- C3 witness: the spec's three concrete scraper examples, obtained by
applying `C3_theorem`. -/
theorem C3_witness :
    grep_connection_info exFs (glogOf (exCfg 0)) =
        .ok ('[' :: ("127.0.0.1:1234".data ++ [']'])) ∧
    (∃ e, grep_connection_info exEnvNoLog.fsys "p".data = .error (.ioError e)) ∧
    grep_connection_info exEnvNoMatch.fsys "p".data = .error .notFoundError := by
  refine ⟨?_, ?_, ?_⟩
  · exact (C3_theorem exFs (glogOf (exCfg 0))).1 exLog "127.0.0.1:1234".data
      (by decide) (by decide)
  · exact (C3_theorem exEnvNoLog.fsys "p".data).2.1.mpr
      ⟨"No such file or directory (os error 2)".data, rfl⟩
  · exact (C3_theorem exEnvNoMatch.fsys "p".data).2.2.mpr
      ⟨"INFO started\nINFO running\n".data, rfl, by decide⟩

/-- C4 counterexample: a line that begins with the literal substring
`Vault connection info: ` at column 0 contains the substring, yet the
scraper's pattern does not match it, because the pattern requires at least
one character before the literal. -/
theorem C4_counterexample :
    occursIn "Vault connection info: ".data
        "Vault connection info: 127.0.0.1:1234".data = true ∧
      matchLine "Vault connection info: 127.0.0.1:1234".data = none := by
  decide

/-- C4 (amended): every newline-free line of the form
`a ++ "Vault connection info: " ++ b` with `a` nonempty (at least one
character before the substring) and `b` nonempty matches the pattern, and
the capture is a suffix of `b` (the remainder after the last occurrence;
the whole of `b` when the substring occurs once). -/
theorem C4_theorem (a b : Str) (ha : a ≠ []) (hb : b ≠ [])
    (hna : ¬ '\n' ∈ a) (hnb : ¬ '\n' ∈ b) :
    ∃ d, matchLine (a ++ ("Vault connection info: ".data ++ b)) =
      some (List.drop d b) := by
  have hsub : "Vault connection info: ".data ++ b = connLit ++ (' ' :: b) := by
    have h0 : "Vault connection info: ".data = connLit ++ [' '] := by decide
    rw [h0, List.append_assoc]
    rfl
  rw [hsub]
  have hL1 : List.take a.length (a ++ (connLit ++ (' ' :: b))) = a :=
    List.take_left a _
  have hL2 : List.drop a.length (a ++ (connLit ++ (' ' :: b))) =
      connLit ++ (' ' :: b) := List.drop_left a _
  have hL3 : List.drop (a.length + 22) (a ++ (connLit ++ (' ' :: b))) =
      ' ' :: b := by
    rw [← List.drop_drop, hL2, List.drop_left' (by decide : connLit.length = 22)]
  have h1 : 1 ≤ a.length := List.length_pos.2 ha
  have hbe : b.isEmpty = false := by cases b with | nil => exact absurd rfl hb | cons c t => rfl
  have e2 : noNl a = true := by
    rw [noNl, List.all_eq_true]
    intro c hc
    have hcne : c ≠ '\n' := fun hEq => hna (hEq ▸ hc)
    simp [hcne]
  have e4 : noNl b = true := by
    rw [noNl, List.all_eq_true]
    intro c hc
    have hcne : c ≠ '\n' := fun hEq => hnb (hEq ▸ hc)
    simp [hcne]
  have hv : validAt (a ++ (connLit ++ (' ' :: b))) a.length = true := by
    unfold validAt
    rw [hL1, hL2, hL3]
    simp [isWsChar, hbe, e2, e4, h1, startsWithL_append]
  have hlen : a.length < (a ++ (connLit ++ (' ' :: b))).length := by
    simp [List.length_append]
  have hmem : a.length ∈ List.filter (validAt (a ++ (connLit ++ (' ' :: b))))
      (List.range (a ++ (connLit ++ (' ' :: b))).length) :=
    List.mem_filter.2 ⟨List.mem_range.2 hlen, hv⟩
  cases hS : (List.filter (validAt (a ++ (connLit ++ (' ' :: b))))
      (List.range (a ++ (connLit ++ (' ' :: b))).length)).getLast? with
  | none =>
    rw [List.getLast?_eq_none_iff] at hS
    rw [hS] at hmem
    cases hmem
  | some m =>
    have hm_ge : a.length ≤ m :=
      le_getLast_of_pairwise_lt
        ((List.pairwise_lt_range _).filter _) hmem hS
    refine ⟨m - a.length, ?_⟩
    have hml : matchLine (a ++ (connLit ++ (' ' :: b))) =
        some (List.drop (m + 23) (a ++ (connLit ++ (' ' :: b)))) := by
      unfold matchLine
      rw [hS]
    rw [hml]
    congr 1
    have harith : m + 23 = a.length + (23 + (m - a.length)) := by omega
    rw [harith, ← List.drop_drop, hL2]
    have hsplit : connLit ++ (' ' :: b) = (connLit ++ [' ']) ++ b := by
      rw [List.append_assoc]
      rfl
    rw [hsplit]
    have hlen23 : (connLit ++ [' ']).length = 23 := by decide
    have harith2 : 23 + (m - a.length) = (connLit ++ [' ']).length + (m - a.length) := by
      rw [hlen23]
    rw [harith2, List.drop_append]

/-- C4 witness: a concrete line with one character before the substring,
via `C4_theorem`. -/
theorem C4_witness :
    ∃ d, matchLine ("x".data ++ ("Vault connection info: ".data ++
        "127.0.0.1:1234".data)) = some (List.drop d "127.0.0.1:1234".data) :=
  C4_theorem "x".data "127.0.0.1:1234".data (by decide) (by decide)
    (by decide) (by decide)

/-- C8: path resolution returns an explicitly supplied path unchanged; with
no explicit path it returns `<home>/.safe/vault/<executable>` and fails with
the resolution error exactly when the home directory is unknown; the
executable name is `safe_vault` (`safe_vault.exe` on Windows). The model
function takes no filesystem: no existence check is performed. -/
theorem C8_theorem (w : Bool) (home : Option Str) :
    (∀ p, get_vault_bin_path w home (some p) = .ok p) ∧
    (get_vault_bin_path w home none = .error .resolutionError ↔ home = none) ∧
    (∀ h, home = some h →
      get_vault_bin_path w home none =
        .ok (pathJoin (pathJoin (pathJoin h ".safe".data) "vault".data)
          (SAFE_VAULT_EXECUTABLE w))) ∧
    SAFE_VAULT_EXECUTABLE false = "safe_vault".data ∧
    SAFE_VAULT_EXECUTABLE true = "safe_vault.exe".data := by
  refine ⟨fun p => rfl, ?_, ?_, by decide, by decide⟩
  · cases home with
    | none => simp [get_vault_bin_path]
    | some h => simp [get_vault_bin_path]
  · rintro h rfl
    rfl

/-- C8 witness: concrete resolutions via `C8_theorem`. -/
theorem C8_witness :
    get_vault_bin_path false (some "/home/user".data) (some exBin) = .ok exBin ∧
    get_vault_bin_path false (some "/home/user".data) none =
      .ok (pathJoin (pathJoin (pathJoin "/home/user".data ".safe".data)
        "vault".data) (SAFE_VAULT_EXECUTABLE false)) :=
  ⟨(C8_theorem false (some "/home/user".data)).1 exBin,
    (C8_theorem false (some "/home/user".data)).2.2.1 "/home/user".data rfl⟩

/-- C10: when `run_with` is given an explicit argument list that fails to
parse, it returns the parse error at once: the event trace is empty (no
launch, no sleep, and the outcome is independent of the home directory,
filesystem and spawner), and the surfaced message is the parse message. -/
theorem C10_theorem (env : Env) (a : List Str) (e : Str)
    (h : env.parse a = .error e) :
    run_with env (some a) = ([], .error (.argParseError e)) ∧
    renderErr (.argParseError e) = e := by
  exact ⟨by simp [run_with, h], rfl⟩

/-- C10 witness: a concrete failing parse via `C10_theorem`. -/
theorem C10_witness :
    run_with exEnv (some []) = ([], .error (.argParseError "unused".data)) ∧
    renderErr (.argParseError "unused".data) = "unused".data :=
  C10_theorem exEnv [] "unused".data rfl

theorem getLast?_cons_of_some {α : Type} {l : List α} {x v : α}
    (h : l.getLast? = some v) : (x :: l).getLast? = some v := by
  cases l with
  | nil => simp at h
  | cons y t => rw [List.getLast?_cons_cons]; exact h

theorem first_mem_genesis (cfg : CmdArgs) :
    "--first".data ∈ genesisVaultArgs cfg := by
  unfold genesisVaultArgs
  exact List.mem_append_right _ (by simp)

theorem first_notmem_current (cfg : CmdArgs) (contact : Str) (j : Nat)
    (hcontact : ∃ s, contact = '[' :: s) :
    ¬ "--first".data ∈ currentVaultArgs cfg contact j := by
  intro hmem
  unfold currentVaultArgs at hmem
  rcases List.mem_append.1 hmem with hcom | hlist
  · unfold commonArgs at hcom
    by_cases hv : cfg.vaults_verbosity > 0
    · rw [if_pos hv] at hcom
      simp only [List.mem_singleton] at hcom
      unfold verbosityToken at hcom
      cases hvv : cfg.vaults_verbosity with
      | zero => omega
      | succ w =>
        rw [hvv, List.replicate_succ] at hcom
        injection hcom with hc1 hrest
        injection hrest with hc2 hc3
        exact absurd hc2 (by decide)
    · rw [if_neg hv] at hcom
      simp at hcom
  · obtain ⟨s, rfl⟩ := hcontact
    rcases List.mem_cons.1 hlist with h | hlist
    · exact absurd h (by decide)
    rcases List.mem_cons.1 hlist with h | hlist
    · have hsl : ('/' : Char) ∈ "--first".data := by
        rw [h]
        unfold pathJoin
        exact List.mem_append_right _ (List.mem_cons_self _ _)
      exact absurd hsl (by decide)
    rcases List.mem_cons.1 hlist with h | hlist
    · exact absurd h (by decide)
    rcases List.mem_cons.1 hlist with h | hlist
    · have hsl : ('/' : Char) ∈ "--first".data := by
        rw [h]
        unfold pathJoin
        exact List.mem_append_right _ (List.mem_cons_self _ _)
      exact absurd hsl (by decide)
    rcases List.mem_cons.1 hlist with h | hlist
    · exact absurd h (by decide)
    rcases List.mem_cons.1 hlist with h | hlist
    · have hbr : ('-' : Char) = '[' := by injection h
      exact absurd hbr (by decide)
    · simp at hlist

theorem opDesc_startsWith (e : RunError) :
    startsWithL (opDesc e) (renderErr e) = true := by
  cases e with
  | argParseError m =>
    have h := startsWithL_append m []
    rwa [List.append_nil] at h
  | resolutionError => decide
  | launchError p as m => exact startsWithL_append _ _
  | ioError m => exact startsWithL_append _ _
  | notFoundError => decide

theorem launchError_msg_carries (p : Str) (as : List Str) (m : Str) :
    occursIn p (renderErr (.launchError p as m)) = true ∧
    occursIn (reprStrList as) (renderErr (.launchError p as m)) = true := by
  constructor
  · exact occursIn_of_append p "Failed to run '".data _
  · have h := occursIn_of_append (reprStrList as)
      ("Failed to run '".data ++ (p ++ "' with args '".data)) ("': ".data ++ m)
    simpa [List.append_assoc, renderErr] using h

/-- C1 counterexample: with `num_vaults = 255`, the loop bound
`num_vaults + 1` wraps to 0 in `u8` arithmetic, so a fully successful run
performs exactly one launch attempt (the genesis), not 255. -/
theorem C1_counterexample :
    (runCore exEnv (exCfg 255)).2 = .ok () ∧
    (exCfg 255).num_vaults = 255 ∧
    countLaunch (runCore exEnv (exCfg 255)).1 = 1 ∧
    countLaunch (runCore exEnv (exCfg 255)).1 ≠ (exCfg 255).num_vaults := by
  decide

/-- C1 (amended): for every instance count 1 ≤ N ≤ 254 a successful run
performs exactly N launch attempts — one genesis launch followed by N − 1
follower launches with indices 2..N in order; for N = 0, and also for
N = 255 where the `u8` loop bound wraps, exactly one genesis launch and no
follower launch occurs. -/
theorem C1_theorem (env : Env) (cfg : CmdArgs) (bin contact : Str)
    (hbin : get_vault_bin_path env.isWindows env.home cfg.vault_path = .ok bin)
    (hc : grep_connection_info env.fsys (glogOf cfg) = .ok contact)
    (hok : (runCore env cfg).2 = .ok ()) :
    (1 ≤ cfg.num_vaults → cfg.num_vaults ≤ 254 →
      launchEvents (runCore env cfg).1 =
        Event.launch bin (genesisVaultArgs cfg) ::
          expFollowerLaunches bin cfg contact 2 (cfg.num_vaults - 1) ∧
      countLaunch (runCore env cfg).1 = cfg.num_vaults) ∧
    (cfg.num_vaults = 0 →
      launchEvents (runCore env cfg).1 = [Event.launch bin (genesisVaultArgs cfg)]) ∧
    (cfg.num_vaults = 255 →
      launchEvents (runCore env cfg).1 = [Event.launch bin (genesisVaultArgs cfg)]) := by
  obtain ⟨bin', contact', hb', hg', hc', htr, hsp⟩ := runCore_ok hok
  have hbb : bin = bin' := by
    have h2 := hbin.symm.trans hb'
    injection h2
  subst hbb
  have hcc : contact = contact' := by
    have h2 := hc.symm.trans hc'
    injection h2
  subst hcc
  refine ⟨?_, ?_, ?_⟩
  · intro h1 h254
    have hbound : (cfg.num_vaults + 1) % 256 - 2 = cfg.num_vaults - 1 := by
      have h3 : (cfg.num_vaults + 1) % 256 = cfg.num_vaults + 1 :=
        Nat.mod_eq_of_lt (by omega)
      omega
    rw [htr, hbound]
    refine ⟨?_, ?_⟩
    · simp [launchEvents, expTrace_launchEvents]
    · simp only [countLaunch, expTrace_countLaunch]
      omega
  · intro h0
    have hbound : (cfg.num_vaults + 1) % 256 - 2 = 0 := by
      rw [h0]
    rw [htr, hbound]
    simp [launchEvents, expFollowerTrace]
  · intro h255
    have hbound : (cfg.num_vaults + 1) % 256 - 2 = 0 := by
      rw [h255]
    rw [htr, hbound]
    simp [launchEvents, expFollowerTrace]

/-- C1 witness: a successful three-vault run has exactly three launch
attempts, via `C1_theorem`. -/
theorem C1_witness :
    launchEvents (runCore exEnv (exCfg 3)).1 =
      Event.launch exBin (genesisVaultArgs (exCfg 3)) ::
        expFollowerLaunches exBin (exCfg 3) exContact 2 2 ∧
    countLaunch (runCore exEnv (exCfg 3)).1 = 3 :=
  (C1_theorem exEnv (exCfg 3) exBin exContact rfl (by decide) (by decide)).1
    (by decide) (by decide)

/-- C2 counterexample: in a successful two-vault run the code sleeps after
the genesis launch and after each follower launch including the last, so
two sleeps occur (the claim predicts N − 1 = 1), and the final event of the
run is a sleep following the last follower's launch. -/
theorem C2_counterexample :
    (runCore exEnv (exCfg 2)).2 = .ok () ∧
    countSleep (runCore exEnv (exCfg 2)).1 = 2 ∧
    countSleep (runCore exEnv (exCfg 2)).1 ≠ 2 - 1 ∧
    (runCore exEnv (exCfg 2)).1.getLast? = some (.sleep 5) := by
  decide

/-- C2 (amended): in a successful run of 2 ≤ N ≤ 254 instances, a sleep of
`interval` seconds occurs once after the genesis launch and once after each
follower launch including the last — N sleeps in total — and the run ends
with a sleep. -/
theorem C2_theorem (env : Env) (cfg : CmdArgs)
    (hok : (runCore env cfg).2 = .ok ())
    (h2 : 2 ≤ cfg.num_vaults) (h254 : cfg.num_vaults ≤ 254) :
    countSleep (runCore env cfg).1 = cfg.num_vaults ∧
    (runCore env cfg).1.getLast? = some (.sleep cfg.interval) := by
  obtain ⟨bin', contact', hb', hg', hc', htr, hsp⟩ := runCore_ok hok
  have hbound : (cfg.num_vaults + 1) % 256 - 2 = cfg.num_vaults - 1 := by
    have h3 : (cfg.num_vaults + 1) % 256 = cfg.num_vaults + 1 :=
      Nat.mod_eq_of_lt (by omega)
    omega
  rw [htr, hbound]
  constructor
  · simp only [countSleep, expTrace_countSleep]
    omega
  · have hlast := expTrace_getLast bin' cfg contact' (cfg.num_vaults - 1) 2 (by omega)
    exact getLast?_cons_of_some (getLast?_cons_of_some (getLast?_cons_of_some hlast))

/-- C2 witness: a successful three-vault run has three sleeps and ends with
a sleep, via `C2_theorem`. -/
theorem C2_witness :
    countSleep (runCore exEnv (exCfg 3)).1 = 3 ∧
    (runCore exEnv (exCfg 3)).1.getLast? = some (.sleep 5) :=
  C2_theorem exEnv (exCfg 3) (by decide) (by decide) (by decide)

/-- C5: in every run (successful or not) the first launch attempt is the
genesis and its argument list contains `--first`; no later launch attempt's
argument list contains `--first`. -/
theorem C5_theorem (env : Env) (cfg : CmdArgs) :
    (∀ b as, (runCore env cfg).1.get? 0 = some (Event.launch b as) →
      "--first".data ∈ as) ∧
    (∀ ev, ev ∈ (runCore env cfg).1.drop 1 → ∀ b as, ev = Event.launch b as →
      ¬ "--first".data ∈ as) := by
  rcases runCore_trace_cases env cfg with h0 | ⟨bin, h1⟩ | ⟨bin, h3, e, hge⟩ |
    ⟨bin, contact, hcok, h4⟩
  · constructor
    · intro b as hh
      rw [h0] at hh
      simp at hh
    · intro ev hev
      rw [h0] at hev
      simp at hev
  · constructor
    · intro b as hh
      rw [h1] at hh
      injection hh with hh2
      injection hh2 with hb1 hb2
      rw [← hb2]
      exact first_mem_genesis cfg
    · intro ev hev
      rw [h1] at hev
      simp at hev
  · constructor
    · intro b as hh
      rw [h3] at hh
      injection hh with hh2
      injection hh2 with hb1 hb2
      rw [← hb2]
      exact first_mem_genesis cfg
    · intro ev hev b as heq
      rw [h3] at hev
      have hev2 : ev ∈ [Event.sleep cfg.interval, Event.scrape (glogOf cfg)] := hev
      rcases List.mem_cons.1 hev2 with rfl | hev3
      · exact absurd heq (by simp)
      · rcases List.mem_cons.1 hev3 with rfl | hev4
        · exact absurd heq (by simp)
        · simp at hev4
  · constructor
    · intro b as hh
      rw [h4] at hh
      injection hh with hh2
      injection hh2 with hb1 hb2
      rw [← hb2]
      exact first_mem_genesis cfg
    · intro ev hev b as heq
      rw [h4] at hev
      have hev2 : ev ∈ Event.sleep cfg.interval :: Event.scrape (glogOf cfg) ::
          (launchFollowers env.spawn bin cfg contact 2
            ((cfg.num_vaults + 1) % 256 - 2)).1 := hev
      rcases List.mem_cons.1 hev2 with rfl | hev3
      · exact absurd heq (by simp)
      · rcases List.mem_cons.1 hev3 with rfl | hev4
        · exact absurd heq (by simp)
        · rcases launchFollowers_mem env.spawn bin cfg contact _ 2 ev hev4 with
            ⟨j, rfl⟩ | rfl
          · injection heq with hb1 hb2
            rw [← hb2]
            obtain ⟨s, hs⟩ := grep_ok_shape hcok
            exact first_notmem_current cfg contact j ⟨s ++ [']'], hs⟩
          · exact absurd heq (by simp)

/-- C5 witness: the genesis argument list of a concrete run contains
`--first`, via `C5_theorem`. -/
theorem C5_witness : "--first".data ∈ genesisVaultArgs (exCfg 3) :=
  (C5_theorem exEnv (exCfg 3)).1 exBin (genesisVaultArgs (exCfg 3)) (by decide)

/-- C6: in a successful run, the scraped contact string is bracketed, and
every launch attempt after the scrape (i.e. every follower) has an argument
list ending with `--hard-coded-contacts` immediately followed by that same
contact string. -/
theorem C6_theorem (env : Env) (cfg : CmdArgs) (bin contact : Str)
    (hbin : get_vault_bin_path env.isWindows env.home cfg.vault_path = .ok bin)
    (hc : grep_connection_info env.fsys (glogOf cfg) = .ok contact)
    (hok : (runCore env cfg).2 = .ok ()) :
    (∃ s, contact = '[' :: (s ++ [']'])) ∧
    ∀ ev, ev ∈ (runCore env cfg).1.drop 3 → ∀ b as, ev = Event.launch b as →
      ∃ pre, as = pre ++ ["--hard-coded-contacts".data, contact] := by
  obtain ⟨bin', contact', hb', hg', hc', htr, hsp⟩ := runCore_ok hok
  have hbb : bin = bin' := by
    have h2 := hbin.symm.trans hb'
    injection h2
  subst hbb
  have hcc : contact = contact' := by
    have h2 := hc.symm.trans hc'
    injection h2
  subst hcc
  refine ⟨grep_ok_shape hc, ?_⟩
  intro ev hev b as heq
  rw [htr] at hev
  have hev2 : ev ∈ expFollowerTrace bin cfg contact 2
      ((cfg.num_vaults + 1) % 256 - 2) := hev
  rcases expTrace_mem bin cfg contact _ 2 ev hev2 with ⟨j, hj1, hj2, rfl⟩ | rfl
  · injection heq with hb1 hb2
    rw [← hb2]
    refine ⟨commonArgs cfg.vaults_verbosity ++
      ["--root-dir".data, pathJoin cfg.vaults_dir ("safe-vault-".data ++ (Nat.repr j).data),
       "--log-dir".data, pathJoin cfg.vaults_dir ("safe-vault-".data ++ (Nat.repr j).data)], ?_⟩
    simp [currentVaultArgs, List.append_assoc]
  · exact absurd heq (by simp)

/-- C6 witness: the first follower of a concrete run carries the scraped
bracketed contact as the value right after `--hard-coded-contacts`, via
`C6_theorem`. -/
theorem C6_witness :
    ∃ pre, currentVaultArgs (exCfg 3) exContact 2 =
      pre ++ ["--hard-coded-contacts".data, exContact] :=
  (C6_theorem exEnv (exCfg 3) exBin exContact rfl (by decide) (by decide)).2
    (Event.launch exBin (currentVaultArgs (exCfg 3) exContact 2)) (by decide)
    exBin (currentVaultArgs (exCfg 3) exContact 2) rfl

/-- C7: in a successful run the genesis launch is the first event, the sleep
the second, the log scrape the third, and follower `2 + d` is launched at
position `2d + 3` — so the genesis launch strictly precedes the scrape,
which strictly precedes every follower launch, and followers are launched
in strictly increasing index order; moreover if the scrape fails, at most
the genesis launch attempt ever happens. -/
theorem C7_theorem (env : Env) (cfg : CmdArgs) :
    (∀ bin contact,
      get_vault_bin_path env.isWindows env.home cfg.vault_path = .ok bin →
      grep_connection_info env.fsys (glogOf cfg) = .ok contact →
      (runCore env cfg).2 = .ok () →
        (runCore env cfg).1.get? 0 = some (Event.launch bin (genesisVaultArgs cfg)) ∧
        (runCore env cfg).1.get? 1 = some (Event.sleep cfg.interval) ∧
        (runCore env cfg).1.get? 2 = some (Event.scrape (glogOf cfg)) ∧
        ∀ d, d < (cfg.num_vaults + 1) % 256 - 2 →
          (runCore env cfg).1.get? (2 * d + 3) =
            some (Event.launch bin (currentVaultArgs cfg contact (2 + d)))) ∧
    (∀ e, grep_connection_info env.fsys (glogOf cfg) = .error e →
      countLaunch (runCore env cfg).1 ≤ 1) := by
  constructor
  · intro bin contact hbin hc hok
    obtain ⟨bin', contact', hb', hg', hc', htr, hsp⟩ := runCore_ok hok
    have hbb : bin = bin' := by
      have h2 := hbin.symm.trans hb'
      injection h2
    subst hbb
    have hcc : contact = contact' := by
      have h2 := hc.symm.trans hc'
      injection h2
    subst hcc
    rw [htr]
    refine ⟨rfl, rfl, rfl, ?_⟩
    intro d hd
    have hidx : (Event.launch bin (genesisVaultArgs cfg) :: Event.sleep cfg.interval ::
        Event.scrape (glogOf cfg) :: expFollowerTrace bin cfg contact 2
          ((cfg.num_vaults + 1) % 256 - 2)).get? (2 * d + 3) =
        (expFollowerTrace bin cfg contact 2
          ((cfg.num_vaults + 1) % 256 - 2)).get? (2 * d) := rfl
    rw [hidx]
    exact expTrace_getElem bin cfg contact d _ 2 hd
  · intro e hge
    rcases runCore_trace_cases env cfg with h0 | ⟨bin, h1⟩ | ⟨bin, h3, e2, hge2⟩ |
      ⟨bin, contact, hcok, h4⟩
    · rw [h0]; simp [countLaunch]
    · rw [h1]; simp [countLaunch]
    · rw [h3]; simp [countLaunch]
    · rw [hcok] at hge
      simp at hge

/-- C7 witness: the first event of a concrete successful run is the genesis
launch, and a concrete run with a failing scrape performs at most one launch
attempt, via `C7_theorem`. -/
theorem C7_witness :
    (runCore exEnv (exCfg 3)).1.get? 0 =
      some (Event.launch exBin (genesisVaultArgs (exCfg 3))) ∧
    countLaunch (runCore exEnvNoLog (exCfg 3)).1 ≤ 1 :=
  ⟨((C7_theorem exEnv (exCfg 3)).1 exBin exContact rfl (by decide) (by decide)).1,
    (C7_theorem exEnvNoLog (exCfg 3)).2
      (.ioError "No such file or directory (os error 2)".data) (by decide)⟩

/-- C9 counterexample: when the genesis log cannot be read, the surfaced
error string does not carry the relevant path (the log file path does not
occur in the message), contrary to the claim that every error carries the
failing operation and the relevant path and/or arguments. -/
theorem C9_counterexample :
    (runCore exEnvNoLog (exCfg 3)).2 =
      .error (.ioError "No such file or directory (os error 2)".data) ∧
    occursIn (glogOf (exCfg 3))
      (renderErr (.ioError "No such file or directory (os error 2)".data)) = false := by
  decide

/-- C9 (amended): every error surfaces as a descriptive string that begins
with a description of the failing operation; launch errors additionally
carry the binary path and the full argument list (the log-read, not-found
and resolution errors carry no path). No error is silently swallowed: a
successful run implies that path resolution, the genesis-log scrape and
every attempted spawn succeeded. -/
theorem C9_theorem (env : Env) (cfg : CmdArgs) :
    (∀ e, (runCore env cfg).2 = .error e →
      startsWithL (opDesc e) (renderErr e) = true ∧
      ∀ p as m, e = .launchError p as m →
        occursIn p (renderErr e) = true ∧
        occursIn (reprStrList as) (renderErr e) = true) ∧
    ((runCore env cfg).2 = .ok () →
      (∃ b, get_vault_bin_path env.isWindows env.home cfg.vault_path = .ok b) ∧
      (∃ c, grep_connection_info env.fsys (glogOf cfg) = .ok c) ∧
      (∀ ev, ev ∈ (runCore env cfg).1 → ∀ b as, ev = Event.launch b as →
        env.spawn b as = .ok ())) := by
  constructor
  · intro e _
    refine ⟨opDesc_startsWith e, fun p as m hpe => ?_⟩
    subst hpe
    exact launchError_msg_carries p as m
  · intro hok
    obtain ⟨bin, contact, hb, hg, hc, htr, hsp⟩ := runCore_ok hok
    refine ⟨⟨bin, hb⟩, ⟨contact, hc⟩, ?_⟩
    intro ev hev b as heq
    rw [htr] at hev
    rcases List.mem_cons.1 hev with rfl | hev
    · injection heq with hb1 hb2
      rw [← hb1, ← hb2]
      exact hg
    · rcases List.mem_cons.1 hev with rfl | hev
      · exact absurd heq (by simp)
      · rcases List.mem_cons.1 hev with rfl | hev
        · exact absurd heq (by simp)
        · rcases expTrace_mem bin cfg contact _ 2 ev hev with ⟨j, hj1, hj2, rfl⟩ | rfl
          · injection heq with hb1 hb2
            rw [← hb1, ← hb2]
            exact hsp j hj1 hj2
          · exact absurd heq (by simp)

/-- C9 witness: the log-read error of a concrete run begins with its
operation description, via `C9_theorem`. -/
theorem C9_witness :
    startsWithL
      (opDesc (.ioError "No such file or directory (os error 2)".data))
      (renderErr (.ioError "No such file or directory (os error 2)".data)) = true :=
  ((C9_theorem exEnvNoLog (exCfg 3)).1
    (.ioError "No such file or directory (os error 2)".data) (by decide)).1
